import Mathlib

/-!
Shallow embedding of the DevHub backend core: credential store
(`authController.js`), token service (`generateToken` / jwt), rate gate
(`server.js` `authLimiter`), ownership guard and bookmark ledger
(`postController.js`).  Machine state (the Mongo collections) is modelled
as explicit lists of records; each controller becomes a pure function from
state and request to (result, state).
-/

namespace DevHub

/-! ## Generic list machinery (Mongo collection as a list of documents) -/

/-- `Model.findById`: first document whose id equals `i`. -/
def findBy {α : Type} (f : α → Nat) (l : List α) (i : Nat) : Option α :=
  l.find? (fun v => f v == i)

/-- `document.save()`: replace every stored document carrying this
document's id with the updated document. -/
def saveBy {α : Type} (f : α → Nat) (l : List α) (u : α) : List α :=
  l.map (fun v => if f v == f u then u else v)

/-- JS `Array.prototype.includes` on an id array. -/
def includesNat : List Nat → Nat → Bool
  | [], _ => false
  | y :: ys, x => if y == x then true else includesNat ys x

/-- mongoose `array.pull(x)`: remove every occurrence of `x`. -/
def pull : List Nat → Nat → List Nat
  | [], _ => []
  | y :: ys, x => if y == x then pull ys x else y :: pull ys x

/-- mongoose `array.push(x)`: append `x` at the end. -/
def push (l : List Nat) (x : Nat) : List Nat := l ++ [x]

/-- Character-level string length (JS `string.length` for ASCII data). -/
def strLen (s : String) : Nat := s.data.length

/-- ASCII lower-casing of one character. -/
def lowerChar (c : Char) : Char :=
  if 'A' ≤ c ∧ c ≤ 'Z' then Char.ofNat (c.toNat + 32) else c

/-- ASCII lower-casing of a string (case-insensitive email comparison). -/
def lowerStr (s : String) : String := String.mk (s.data.map lowerChar)

/-- Split a character list at every occurrence of `c`. -/
def splitOnChar (c : Char) : List Char → List (List Char)
  | [] => [[]]
  | x :: xs =>
    let r := splitOnChar c xs
    if x == c then [] :: r
    else
      match r with
      | [] => [[x]]
      | y :: ys => (x :: y) :: ys

/-! ## Data model -/

/-- A `User` document (`models/User.js`): id, unique email, bcrypt password
hash, nickname, and the denormalized array of bookmarked post ids. -/
structure Account where
  id : Nat
  email : String
  passwordHash : String
  nickname : String
  bookmarks : List Nat
deriving DecidableEq, Repr

/-- A `Post` document (`models/Post.js`): id, author id, payload fields and
the denormalized array of bookmarking account ids. -/
structure Post where
  id : Nat
  author : Nat
  title : String
  content : String
  category : String
  tags : List String
  bookmarkedBy : List Nat
deriving DecidableEq, Repr

/-- The persistent state: the two Mongo collections the core touches. -/
structure DB where
  users : List Account
  posts : List Post
deriving DecidableEq, Repr

def findUserById (l : List Account) (i : Nat) : Option Account :=
  findBy Account.id l i

def findPostById (l : List Post) (i : Nat) : Option Post :=
  findBy Post.id l i

def saveUser (l : List Account) (u : Account) : List Account :=
  saveBy Account.id l u

def savePost (l : List Post) (p : Post) : List Post :=
  saveBy Post.id l p

/-! ## Token service (`generateToken` in authController.js)

Modelled from the spec: the jwt library and `middleware/auth.js` are not
under src/.  Per spec §4.2 a token is a signed value embedding
`{subjectAccountId, issuedAt, expiresAt}` and verification succeeds only
if the signature matches and `now < expiresAt`.  The HMAC signature is
modelled as the tamper-evident pair (secret, payload); `expiresIn: '7d'`
is taken from `generateToken` in src. -/

structure TokenPayload where
  userId : Nat
  iat : Nat
  exp : Nat
deriving DecidableEq, Repr

/-- A signed jwt: payload plus signature over (secret, payload). -/
structure SignedToken where
  payload : TokenPayload
  sig : String × TokenPayload
deriving DecidableEq, Repr

/-- Seven days in seconds (`expiresIn: '7d'`). -/
def sevenDays : Nat := 7 * 24 * 60 * 60

/-- The HMAC, modelled as an injective pairing of secret and payload. -/
def jwtSign (secret : String) (p : TokenPayload) : String × TokenPayload :=
  (secret, p)

/-- `generateToken`: `jwt.sign({ userId }, secret, { expiresIn: '7d' })`. -/
def generateToken (secret : String) (userId now : Nat) : SignedToken :=
  let p : TokenPayload := ⟨userId, now, now + sevenDays⟩
  ⟨p, jwtSign secret p⟩

/-- `jwt.verify`: succeeds with the subject id iff the signature matches
and the clock is strictly before `exp`. -/
def jwtVerify (secret : String) (t : SignedToken) (now : Nat) : Option Nat :=
  if t.sig = jwtSign secret t.payload then
    if now < t.payload.exp then some t.payload.userId else none
  else none

/-! ## Credential store (`authController.js`) -/

/-- Shallow model of Joi `string().email()`: one `@` with a non-empty
local part and a dotted domain of non-empty labels. -/
def validEmail (e : String) : Bool :=
  match splitOnChar '@' e.data with
  | [lp, dom] =>
    !lp.isEmpty &&
      (let labels := splitOnChar '.' dom
       decide (2 ≤ labels.length) && labels.all (fun l => !l.isEmpty))
  | _ => false

/-- `value.email.split('@')[0]`, the default nickname. -/
def emailLocalPart (e : String) : String :=
  match splitOnChar '@' e.data with
  | lp :: _ => String.mk lp
  | [] => ""

/-- Modelled from the spec: `models/User.js` (bcrypt pre-save hook) is not
under src/.  Per spec §4.1 hashing is a salted one-way function; it is
modelled as an injective opaque tagging, which is all the claims use. -/
def hashPw (p : String) : String := "bcrypt$2a$10$" ++ p

/-- Modelled from the spec: `user.comparePassword` (bcrypt.compare) from
the absent `models/User.js`; true iff the plaintext hashes to the stored
hash. -/
def comparePassword (plain stored : String) : Bool := hashPw plain == stored

/-- Modelled from the spec: `models/User.js` is not under src/.  Per spec
§3 invariant 1, "Email is unique across all Accounts (case-insensitive)",
the `User.findOne({email})` lookup compares emails case-insensitively. -/
def findOneByEmail (l : List Account) (e : String) : Option Account :=
  l.find? (fun u => lowerStr u.email == lowerStr e)

/-- Joi check of the optional nickname: `string().min(2).max(32)`. -/
def nicknameBad : Option String → Bool
  | some n => decide (strLen n < 2) || decide (32 < strLen n)
  | none => false

inductive RegisterResult where
  | validationError (msg : String)
  | weakPassword
  | emailTaken
  | created (a : Account)
deriving DecidableEq, Repr

/-- HTTP status of each register outcome (all Joi failures and the
duplicate email answer 400; creation answers 201). -/
def registerStatus : RegisterResult → Nat
  | .validationError _ => 400
  | .weakPassword => 400
  | .emailTaken => 400
  | .created _ => 201

/-- `register`: Joi-validate (email, then `password.min(6)`, then
nickname), reject a registered email, otherwise create the account with
the hashed password and default nickname.  `freshId` models Mongo's id
generation. -/
def register (db : DB) (freshId : Nat) (email pw : String)
    (nick? : Option String) : RegisterResult × DB :=
  if !(validEmail email) then (.validationError "email must be a valid email", db)
  else if strLen pw < 6 then (.weakPassword, db)
  else if nicknameBad nick? then (.validationError "nickname length", db)
  else
    match findOneByEmail db.users email with
    | some _ => (.emailTaken, db)
    | none =>
      let acc : Account :=
        ⟨freshId, email, hashPw pw, nick?.getD (emailLocalPart email), []⟩
      (.created acc, { db with users := db.users ++ [acc] })

inductive LoginResult where
  | validationError (msg : String)
  | invalidCredentials
  | success (a : Account)
deriving DecidableEq, Repr

def loginStatus : LoginResult → Nat
  | .validationError _ => 400
  | .invalidCredentials => 400
  | .success _ => 200

/-- The response body message of each login outcome; both failure paths of
the source return the literal string 'Invalid credentials'. -/
def loginMessage : LoginResult → String
  | .validationError m => m
  | .invalidCredentials => "Invalid credentials"
  | .success _ => ""

/-- `login`: Joi-validate, look the account up by email, compare the
password; unknown email and wrong password take distinct branches that
both answer 400 'Invalid credentials'. -/
def login (db : DB) (email pw : String) : LoginResult :=
  if !(validEmail email) then .validationError "email must be a valid email"
  else if strLen pw == 0 then .validationError "password is required"
  else
    match findOneByEmail db.users email with
    | none => .invalidCredentials
    | some u =>
      if comparePassword pw u.passwordHash then .success u
      else .invalidCredentials

/-- Joi check of the optional new password: `string().min(6)`. -/
def passwordOptBad : Option String → Bool
  | some p => decide (strLen p < 6)
  | none => false

inductive ProfileResult where
  | validationError (msg : String)
  | notFound
  | ok (a : Account)
deriving DecidableEq, Repr

/-- The account document after the two conditional assignments of
`updateProfile` (`if (value.nickname) ...; if (value.password) ...`). -/
def profileUpdatedUser (u : Account) (nick? pw? : Option String) : Account :=
  let u1 := match nick? with
    | some n => { u with nickname := n }
    | none => u
  match pw? with
  | some p => { u1 with passwordHash := hashPw p }
  | none => u1

/-- `updateProfile`: Joi-validate nickname/password, 404 when the account
is gone, otherwise overwrite nickname and/or password hash and save. -/
def updateProfile (db : DB) (userId : Nat) (nick? pw? : Option String) :
    ProfileResult × DB :=
  if nicknameBad nick? then (.validationError "nickname length", db)
  else if passwordOptBad pw? then (.validationError "password length", db)
  else
    match findUserById db.users userId with
    | none => (.notFound, db)
    | some u =>
      let u2 := profileUpdatedUser u nick? pw?
      (.ok u2, { db with users := saveUser db.users u2 })

/-- True exactly on the success outcome of `updateProfile`. -/
def profileOk : ProfileResult → Bool
  | .ok _ => true
  | _ => false

/-! ## Rate gate (`authLimiter` in server.js) -/

/-- `windowMs: 15 * 60 * 1000`. -/
def windowMs : Nat := 15 * 60 * 1000

/-- `max: 100` requests per identity per window. -/
def maxRequests : Nat := 100

/-- The skip allow-list from source: `(req) => req.path === '/api/auth/me'`. -/
def skipCheck (reqPath : String) : Bool := reqPath == "/api/auth/me"

/-- Express mounting (`app.use('/api/auth', authLimiter)`): inside a
mounted middleware `req.path` is the request path with the mount prefix
removed. -/
def mountedPath (url : String) : String :=
  String.mk (url.data.drop "/api/auth".data.length)

/-- The per-identity fixed window of express-rate-limit's store. -/
structure RateState where
  windowStart : Nat
  count : Nat
deriving DecidableEq, Repr

inductive RateResult where
  | allowed
  | limited (retryAfter : Nat)
deriving DecidableEq, Repr

/-- One hit on the store: start a window on the first request or after the
window elapsed, otherwise increment the counter. -/
def rateLimitHit (st : Option RateState) (now : Nat) : RateState :=
  match st with
  | none => ⟨now, 1⟩
  | some w =>
    if w.windowStart + windowMs ≤ now then ⟨now, 1⟩
    else ⟨w.windowStart, w.count + 1⟩

/-- `authLimiter` on one request from one identity: skip when the (mount
stripped) path equals the allow-list entry, otherwise count the hit and
answer 429 with the remaining window as retry-after once the count
exceeds `max`. -/
def authLimiter (st : Option RateState) (url : String) (now : Nat) :
    RateResult × Option RateState :=
  if skipCheck (mountedPath url) then (.allowed, st)
  else
    let w := rateLimitHit st now
    (if maxRequests < w.count then .limited (w.windowStart + windowMs - now)
     else .allowed, some w)

/-- Run a sequence of (url, time) requests through the limiter, returning
the final store state. -/
def runSeq (st : Option RateState) : List (String × Nat) → Option RateState
  | [] => st
  | (u, t) :: rest => runSeq (authLimiter st u t).2 rest

/-! ## Post controller (`postController.js`) -/

inductive MutResult where
  | notFound
  | forbidden
  | validationError
  | okPost (p : Post)
  | deleted
deriving DecidableEq, Repr

/-- Valid post categories of the Joi schemas. -/
def categories : List String := ["General", "Q&A", "Showcase", "Jobs", "Events"]

/-- Joi body check of `updatePost`: title 1..100, content min 1, category
from the fixed list, all optional. -/
def validUpdateBody (t? c? g? : Option String) : Bool :=
  (match t? with
   | some t => decide (1 ≤ strLen t) && decide (strLen t ≤ 100)
   | none => true)
  && (match c? with
      | some c => decide (1 ≤ strLen c)
      | none => true)
  && (match g? with
      | some g => categories.contains g
      | none => true)

/-- `updatePost`: 404 on a missing post, 403 when the author is not the
actor, 400 on a Joi failure, otherwise `findByIdAndUpdate` with the body
fields. -/
def updatePost (db : DB) (actorId postId : Nat) (t? c? g? : Option String)
    (tags? : Option (List String)) : MutResult × DB :=
  match findPostById db.posts postId with
  | none => (.notFound, db)
  | some post =>
    if post.author != actorId then (.forbidden, db)
    else if !(validUpdateBody t? c? g?) then (.validationError, db)
    else
      let p' : Post :=
        { post with
          title := t?.getD post.title
          content := c?.getD post.content
          category := g?.getD post.category
          tags := tags?.getD post.tags }
      (.okPost p', { db with posts := savePost db.posts p' })

/-- `deletePost`: 404 on a missing post, 403 when the author is not the
actor, otherwise `findByIdAndDelete`. -/
def deletePost (db : DB) (actorId postId : Nat) : MutResult × DB :=
  match findPostById db.posts postId with
  | none => (.notFound, db)
  | some post =>
    if post.author != actorId then (.forbidden, db)
    else (.deleted, { db with posts := db.posts.filter (fun q => q.id != postId) })

inductive ToggleResult where
  | ok (isBookmarked : Bool)
  | notFound
  | serverError
deriving DecidableEq, Repr

/-- The user document after one toggle: pull the post id when bookmarked,
push it otherwise. -/
def toggledUser (user : Account) (post : Post) : Account :=
  if includesNat user.bookmarks post.id then
    { user with bookmarks := pull user.bookmarks post.id }
  else
    { user with bookmarks := push user.bookmarks post.id }

/-- The post document after one toggle: pull the user id when the user had
the bookmark, push it otherwise (the branch is decided on the user side,
as in source). -/
def toggledPost (user : Account) (post : Post) : Post :=
  if includesNat user.bookmarks post.id then
    { post with bookmarkedBy := pull post.bookmarkedBy user.id }
  else
    { post with bookmarkedBy := push post.bookmarkedBy user.id }

/-- `toggleBookmark`: fetch post and user; 404 when the post is missing;
when the user document is missing the source dereferences `null` and the
catch block answers 500; otherwise flip both sides, save both documents
and answer `isBookmarked: !isBookmarked`. -/
def toggleBookmark (db : DB) (userId postId : Nat) : ToggleResult × DB :=
  match findPostById db.posts postId, findUserById db.users userId with
  | none, _ => (.notFound, db)
  | some _, none => (.serverError, db)
  | some post, some user =>
    (.ok (!(includesNat user.bookmarks post.id)),
     { db with
       users := saveUser db.users (toggledUser user post)
       posts := savePost db.posts (toggledPost user post) })

/-- The bidirectional bookmark invariant for a pair, read through the
collection lookups: the account's `bookmarks` holds the post's id iff the
post's `bookmarkedBy` holds the account's id. -/
def bmInvariant (db : DB) (a i : Nat) : Prop :=
  ∀ u p, findUserById db.users a = some u → findPostById db.posts i = some p →
    includesNat u.bookmarks p.id = includesNat p.bookmarkedBy u.id

/-! ## Helper lemmas -/

theorem findBy_eq_id {α : Type} (f : α → Nat) (l : List α) (i : Nat) (u : α)
    (h : findBy f l i = some u) : f u = i := by
  have hp := List.find?_some h
  simpa using hp

theorem findBy_saveBy {α : Type} (f : α → Nat) (l : List α) (i : Nat) (u u' : α)
    (h : findBy f l i = some u) (h' : f u' = i) :
    findBy f (saveBy f l u') i = some u' := by
  subst h'
  induction l with
  | nil => simp [findBy] at h
  | cons x xs ih =>
    by_cases hx : f x = f u'
    · simp [findBy, saveBy, hx]
    · have hstep : saveBy f (x :: xs) u' = x :: saveBy f xs u' := by
        simp [saveBy, hx]
      have h2 : findBy f xs (f u') = some u := by
        have h3 := h
        simp only [findBy] at h3
        rwa [List.find?_cons_of_neg _ (by simp [hx])] at h3
      have h4 := ih h2
      simp only [findBy] at h4 ⊢
      rw [hstep, List.find?_cons_of_neg _ (by simp [hx])]
      exact h4

theorem includes_pull (l : List Nat) (x : Nat) :
    includesNat (pull l x) x = false := by
  induction l with
  | nil => rfl
  | cons y ys ih =>
    by_cases hy : y = x
    · simpa [pull, hy] using ih
    · simpa [pull, includesNat, hy] using ih

theorem includes_push (l : List Nat) (x : Nat) :
    includesNat (push l x) x = true := by
  induction l with
  | nil => simp [push, includesNat]
  | cons y ys ih =>
    by_cases hy : y = x
    · simp [push, includesNat, hy]
    · simpa [push, includesNat, hy] using ih

theorem toggledUser_id (u : Account) (p : Post) : (toggledUser u p).id = u.id := by
  unfold toggledUser; split <;> rfl

theorem toggledPost_id (u : Account) (p : Post) : (toggledPost u p).id = p.id := by
  unfold toggledPost; split <;> rfl

theorem toggledUser_includes (u : Account) (p : Post) :
    includesNat (toggledUser u p).bookmarks p.id
      = !(includesNat u.bookmarks p.id) := by
  cases hb : includesNat u.bookmarks p.id with
  | true => simp [toggledUser, hb, includes_pull]
  | false => simp [toggledUser, hb, includes_push]

theorem toggledPost_includes (u : Account) (p : Post) :
    includesNat (toggledPost u p).bookmarkedBy u.id
      = !(includesNat u.bookmarks p.id) := by
  cases hb : includesNat u.bookmarks p.id with
  | true => simp [toggledPost, hb, includes_pull]
  | false => simp [toggledPost, hb, includes_push]

theorem toggleBookmark_eq (db : DB) (a i : Nat) (u : Account) (p : Post)
    (hu : findUserById db.users a = some u)
    (hp : findPostById db.posts i = some p) :
    toggleBookmark db a i =
      (.ok (!(includesNat u.bookmarks p.id)),
       { db with
         users := saveUser db.users (toggledUser u p)
         posts := savePost db.posts (toggledPost u p) }) := by
  unfold toggleBookmark
  rw [hp, hu]

theorem findUser_after_save (db : DB) (a : Nat) (u u' : Account)
    (hu : findUserById db.users a = some u) (h' : u'.id = a) :
    findUserById (saveUser db.users u') a = some u' :=
  findBy_saveBy Account.id db.users a u u' hu h'

theorem findPost_after_save (db : DB) (i : Nat) (p p' : Post)
    (hp : findPostById db.posts i = some p) (h' : p'.id = i) :
    findPostById (savePost db.posts p') i = some p' :=
  findBy_saveBy Post.id db.posts i p p' hp h'

theorem toggle_state_lookups (db : DB) (a i : Nat) (u : Account) (p : Post)
    (hu : findUserById db.users a = some u)
    (hp : findPostById db.posts i = some p) :
    findUserById (toggleBookmark db a i).2.users a = some (toggledUser u p)
    ∧ findPostById (toggleBookmark db a i).2.posts i = some (toggledPost u p) := by
  rw [toggleBookmark_eq db a i u p hu hp]
  constructor
  · exact findUser_after_save db a u (toggledUser u p) hu
      (by rw [toggledUser_id]; exact findBy_eq_id Account.id db.users a u hu)
  · exact findPost_after_save db i p (toggledPost u p) hp
      (by rw [toggledPost_id]; exact findBy_eq_id Post.id db.posts i p hp)

theorem bmInvariant_after_toggle (db : DB) (a i : Nat) (u : Account) (p : Post)
    (hu : findUserById db.users a = some u)
    (hp : findPostById db.posts i = some p) :
    bmInvariant (toggleBookmark db a i).2 a i := by
  intro u₀ p₀ h₁ h₂
  obtain ⟨hu', hp'⟩ := toggle_state_lookups db a i u p hu hp
  rw [hu'] at h₁
  rw [hp'] at h₂
  injection h₁ with h₁
  injection h₂ with h₂
  subst h₁
  subst h₂
  rw [toggledPost_id, toggledUser_id, toggledUser_includes, toggledPost_includes]

theorem profileUpdatedUser_id (u : Account) (n? p? : Option String) :
    (profileUpdatedUser u n? p?).id = u.id := by
  cases n? <;> cases p? <;> rfl

theorem profileUpdatedUser_email (u : Account) (n? p? : Option String) :
    (profileUpdatedUser u n? p?).email = u.email := by
  cases n? <;> cases p? <;> rfl

theorem profileUpdatedUser_bookmarks (u : Account) (n? p? : Option String) :
    (profileUpdatedUser u n? p?).bookmarks = u.bookmarks := by
  cases n? <;> cases p? <;> rfl

/-! ## Concrete fixtures used by the witnesses -/

def wAccount : Account := ⟨1, "a@x.com", hashPw "longenough1", "a", []⟩

def wPost : Post := ⟨10, 1, "Title", "Content", "General", [], []⟩

def wDb : DB := ⟨[wAccount], [wPost]⟩

/-- A state holding one post authored by account 2 and no user documents. -/
def cDb : DB := ⟨[], [⟨1, 2, "Title", "Content", "General", [], []⟩]⟩

/-! ## Claims -/

/-- C1: for an existing account `a` and post `i`, toggling twice in
sequence returns the `bookmarked` flag to its original value, and after
each of the two calls the bidirectional bookmark invariant holds for the
pair. -/
theorem claim_C1 (db : DB) (a i : Nat) (u : Account) (p : Post)
    (hu : findUserById db.users a = some u)
    (hp : findPostById db.posts i = some p) :
    (toggleBookmark db a i).1 = .ok (!(includesNat u.bookmarks p.id))
    ∧ (toggleBookmark (toggleBookmark db a i).2 a i).1
        = .ok (includesNat u.bookmarks p.id)
    ∧ bmInvariant (toggleBookmark db a i).2 a i
    ∧ bmInvariant (toggleBookmark (toggleBookmark db a i).2 a i).2 a i := by
  obtain ⟨hu1, hp1⟩ := toggle_state_lookups db a i u p hu hp
  refine ⟨?_, ?_, bmInvariant_after_toggle db a i u p hu hp,
    bmInvariant_after_toggle _ a i (toggledUser u p) (toggledPost u p) hu1 hp1⟩
  · rw [toggleBookmark_eq db a i u p hu hp]
  · rw [toggleBookmark_eq _ a i (toggledUser u p) (toggledPost u p) hu1 hp1]
    simp [toggledPost_id, toggledUser_includes]

theorem claim_C1_witness :
    (toggleBookmark wDb 1 10).1 = .ok (!(includesNat wAccount.bookmarks wPost.id))
    ∧ (toggleBookmark (toggleBookmark wDb 1 10).2 1 10).1
        = .ok (includesNat wAccount.bookmarks wPost.id)
    ∧ bmInvariant (toggleBookmark wDb 1 10).2 1 10
    ∧ bmInvariant (toggleBookmark (toggleBookmark wDb 1 10).2 1 10).2 1 10 :=
  claim_C1 wDb 1 10 wAccount wPost (by rfl) (by rfl)

/-- C2: for an existing, consistently linked pair, toggle flips membership
on both sides (pull from both when linked, push to both when absent) and
the returned boolean equals the resulting linked state, not the action
taken. -/
theorem claim_C2 (db : DB) (a i : Nat) (u : Account) (p : Post)
    (hu : findUserById db.users a = some u)
    (hp : findPostById db.posts i = some p)
    (hcons : includesNat u.bookmarks p.id = includesNat p.bookmarkedBy u.id) :
    (toggleBookmark db a i).1 = .ok (!(includesNat u.bookmarks p.id))
    ∧ findUserById (toggleBookmark db a i).2.users a = some (toggledUser u p)
    ∧ findPostById (toggleBookmark db a i).2.posts i = some (toggledPost u p)
    ∧ includesNat (toggledUser u p).bookmarks p.id
        = !(includesNat u.bookmarks p.id)
    ∧ includesNat (toggledPost u p).bookmarkedBy u.id
        = !(includesNat p.bookmarkedBy u.id) := by
  obtain ⟨hu1, hp1⟩ := toggle_state_lookups db a i u p hu hp
  refine ⟨?_, hu1, hp1, toggledUser_includes u p, ?_⟩
  · rw [toggleBookmark_eq db a i u p hu hp]
  · rw [toggledPost_includes, hcons]

theorem claim_C2_witness :
    (toggleBookmark wDb 1 10).1 = .ok (!(includesNat wAccount.bookmarks wPost.id))
    ∧ findUserById (toggleBookmark wDb 1 10).2.users 1
        = some (toggledUser wAccount wPost)
    ∧ findPostById (toggleBookmark wDb 1 10).2.posts 10
        = some (toggledPost wAccount wPost)
    ∧ includesNat (toggledUser wAccount wPost).bookmarks wPost.id
        = !(includesNat wAccount.bookmarks wPost.id)
    ∧ includesNat (toggledPost wAccount wPost).bookmarkedBy wAccount.id
        = !(includesNat wPost.bookmarkedBy wAccount.id) :=
  claim_C2 wDb 1 10 wAccount wPost (by rfl) (by rfl) (by rfl)

/-- C8 (amended): toggle answers 404 with an unchanged state when the post
is missing; when the post exists but the account document is missing the
source dereferences null and answers 500 (still with an unchanged state),
not 404. -/
theorem claim_C8_amended (db : DB) (a i : Nat) :
    (findPostById db.posts i = none → toggleBookmark db a i = (.notFound, db))
    ∧ (∀ p, findPostById db.posts i = some p → findUserById db.users a = none →
        toggleBookmark db a i = (.serverError, db)) := by
  constructor
  · intro h
    unfold toggleBookmark
    rw [h]
  · intro p hp hu
    unfold toggleBookmark
    rw [hp, hu]

theorem claim_C8_witness :
    toggleBookmark cDb 7 1 = (.serverError, cDb) :=
  (claim_C8_amended cDb 7 1).2 ⟨1, 2, "Title", "Content", "General", [], []⟩
    (by rfl) (by rfl)

/-- C8 counterexample: with an existing post but a non-existent account,
toggle answers 500, not the 404 the claim requires. -/
theorem claim_C8_cex :
    findUserById cDb.users 7 = none
    ∧ (toggleBookmark cDb 7 1).1 = .serverError
    ∧ (toggleBookmark cDb 7 1).1 ≠ .notFound := by decide

/-- C9: for an existing post, both mutations (update and delete) answer
403 with an unchanged state whenever the actor differs from the author,
and pass the ownership check when the actor equals the author. -/
theorem claim_C9 (db : DB) (actor pid : Nat) (t? c? g? : Option String)
    (tags? : Option (List String)) (p : Post)
    (hp : findPostById db.posts pid = some p) :
    (p.author ≠ actor →
      updatePost db actor pid t? c? g? tags? = (.forbidden, db)
      ∧ deletePost db actor pid = (.forbidden, db))
    ∧ (p.author = actor →
      (updatePost db actor pid t? c? g? tags?).1 ≠ .forbidden
      ∧ (deletePost db actor pid).1 ≠ .forbidden) := by
  constructor
  · intro hne
    have hb : (p.author != actor) = true := by simp [hne]
    constructor
    · unfold updatePost
      rw [hp]
      simp [hb]
    · unfold deletePost
      rw [hp]
      simp [hb]
  · intro heq
    have hb : (p.author != actor) = false := by simp [heq]
    constructor
    · unfold updatePost
      rw [hp]
      simp only [hb, Bool.false_eq_true, if_false]
      split <;> simp
    · unfold deletePost
      rw [hp]
      simp [hb]

theorem claim_C9_witness :
    updatePost cDb 5 1 none none none none = (.forbidden, cDb)
    ∧ deletePost cDb 5 1 = (.forbidden, cDb) :=
  (claim_C9 cDb 5 1 none none none none ⟨1, 2, "Title", "Content", "General", [], []⟩
    (by rfl)).1 (by decide)

/-- C3: a token issued for account `a` embeds an expiry of exactly seven
days after issuance, verifies to `a` at every clock instant strictly
before that expiry, and any token verifies successfully only if its
signature matches and the clock is strictly before its expiry. -/
theorem claim_C3 (secret : String) (a now : Nat) :
    (generateToken secret a now).payload.exp = now + sevenDays
    ∧ (∀ n, n < now + sevenDays →
        jwtVerify secret (generateToken secret a now) n = some a)
    ∧ (∀ t n u, jwtVerify secret t n = some u →
        t.sig = jwtSign secret t.payload ∧ n < t.payload.exp) := by
  refine ⟨rfl, ?_, ?_⟩
  · intro n hn
    unfold generateToken jwtVerify
    simp [jwtSign, hn]
  · intro t n u hv
    unfold jwtVerify at hv
    by_cases hs : t.sig = jwtSign secret t.payload
    · rw [if_pos hs] at hv
      by_cases hn : n < t.payload.exp
      · exact ⟨hs, hn⟩
      · rw [if_neg hn] at hv
        exact absurd hv (by simp)
    · rw [if_neg hs] at hv
      exact absurd hv (by simp)

theorem claim_C3_witness :
    jwtVerify "app_secret" (generateToken "app_secret" 42 1000) 605799 = some 42 :=
  (claim_C3 "app_secret" 42 1000).2.1 605799 (by decide)

/-- C4 (amended): with a syntactically valid email, every registration
whose password is shorter than six characters fails with the 400
weak-password answer and leaves the state unchanged; the source threshold
is six, not eight. -/
theorem claim_C4_amended (db : DB) (fid : Nat) (e pw : String)
    (n? : Option String) (hv : validEmail e = true) (hpw : strLen pw < 6) :
    register db fid e pw n? = (.weakPassword, db)
    ∧ registerStatus (register db fid e pw n?).1 = 400 := by
  have h : register db fid e pw n? = (.weakPassword, db) := by
    unfold register
    rw [hv]
    simp [hpw]
  exact ⟨h, by rw [h]; rfl⟩

theorem claim_C4_witness :
    register ⟨[], []⟩ 1 "a@x.com" "short" none = (.weakPassword, ⟨[], []⟩)
    ∧ registerStatus (register ⟨[], []⟩ 1 "a@x.com" "short" none).1 = 400 :=
  claim_C4_amended ⟨[], []⟩ 1 "a@x.com" "short" none (by decide) (by decide)

/-- C4 counterexample: the six-character password "abcdef" is shorter than
eight characters, yet registration succeeds and creates an account, so
the claimed threshold of eight is wrong. -/
theorem claim_C4_cex :
    strLen "abcdef" < 8
    ∧ (register ⟨[], []⟩ 1 "a@x.com" "abcdef" none).1
        = .created ⟨1, "a@x.com", hashPw "abcdef", "a", []⟩
    ∧ (register ⟨[], []⟩ 1 "a@x.com" "abcdef" none).1 ≠ .weakPassword
    ∧ (register ⟨[], []⟩ 1 "a@x.com" "abcdef" none).2.users ≠ [] := by
  decide

/-- C5: a login with an unknown email and a login with a known email but
wrong password produce the identical result: the same 400 status and the
same 'Invalid credentials' message, revealing nothing about which half
was wrong. -/
theorem claim_C5 (db : DB) (e1 p1 e2 p2 : String) (u : Account)
    (hv1 : validEmail e1 = true) (hp1 : strLen p1 ≠ 0)
    (hn1 : findOneByEmail db.users e1 = none)
    (hv2 : validEmail e2 = true) (hp2 : strLen p2 ≠ 0)
    (hs2 : findOneByEmail db.users e2 = some u)
    (hw2 : comparePassword p2 u.passwordHash = false) :
    login db e1 p1 = .invalidCredentials
    ∧ login db e2 p2 = .invalidCredentials
    ∧ login db e1 p1 = login db e2 p2
    ∧ loginStatus (login db e1 p1) = 400
    ∧ loginMessage (login db e1 p1) = "Invalid credentials"
    ∧ loginStatus (login db e1 p1) = loginStatus (login db e2 p2)
    ∧ loginMessage (login db e1 p1) = loginMessage (login db e2 p2) := by
  have h1 : login db e1 p1 = .invalidCredentials := by
    unfold login
    rw [hv1, hn1]
    simp [hp1]
  have h2 : login db e2 p2 = .invalidCredentials := by
    unfold login
    rw [hv2, hs2]
    simp [hp2, hw2]
  refine ⟨h1, h2, by rw [h1, h2], by rw [h1]; rfl, by rw [h1]; rfl,
    by rw [h1, h2], by rw [h1, h2]⟩

theorem claim_C5_witness :
    login wDb "b@x.com" "whatever1" = .invalidCredentials
    ∧ login wDb "a@x.com" "wrongpass" = .invalidCredentials
    ∧ login wDb "b@x.com" "whatever1" = login wDb "a@x.com" "wrongpass"
    ∧ loginStatus (login wDb "b@x.com" "whatever1") = 400
    ∧ loginMessage (login wDb "b@x.com" "whatever1") = "Invalid credentials"
    ∧ loginStatus (login wDb "b@x.com" "whatever1")
        = loginStatus (login wDb "a@x.com" "wrongpass")
    ∧ loginMessage (login wDb "b@x.com" "whatever1")
        = loginMessage (login wDb "a@x.com" "wrongpass") :=
  claim_C5 wDb "b@x.com" "whatever1" "a@x.com" "wrongpass" wAccount
    (by decide) (by decide) (by decide) (by decide) (by decide) (by rfl) (by decide)

/-- C6: an otherwise-valid registration whose email matches an existing
account's email up to letter case fails with the 400 email-taken answer
and leaves the state unchanged; and register preserves the invariant that
no two stored accounts have emails differing only in case. -/
theorem claim_C6 (db db2 : DB) (fid fid2 : Nat) (e pw e2 pw2 : String)
    (n? n2? : Option String)
    (hv : validEmail e = true) (hpw : ¬ strLen pw < 6)
    (hn : nicknameBad n? = false)
    (hexist : ∃ u, u ∈ db.users ∧ lowerStr u.email = lowerStr e)
    (hpair : List.Pairwise (fun u v => lowerStr u.email ≠ lowerStr v.email)
      db2.users) :
    register db fid e pw n? = (.emailTaken, db)
    ∧ List.Pairwise (fun u v => lowerStr u.email ≠ lowerStr v.email)
        (register db2 fid2 e2 pw2 n2?).2.users := by
  constructor
  · obtain ⟨u, hmem, heq⟩ := hexist
    cases hfs : findOneByEmail db.users e with
    | none =>
      rw [findOneByEmail, List.find?_eq_none] at hfs
      exact absurd (by simp [heq]) (hfs u hmem)
    | some w =>
      unfold register
      rw [hv, hfs]
      simp [hpw, hn]
  · unfold register
    split
    · exact hpair
    · split
      · exact hpair
      · split
        · exact hpair
        · cases hfs : findOneByEmail db2.users e2 with
          | some w =>
            simp only [hfs]
            exact hpair
          | none =>
            simp only [hfs]
            show List.Pairwise _ (db2.users ++ [_])
            rw [List.pairwise_append]
            refine ⟨hpair, by simp, ?_⟩
            intro x hx y hy
            simp only [List.mem_singleton] at hy
            subst hy
            have hne := (List.find?_eq_none.mp hfs) x hx
            simpa using hne

theorem claim_C6_witness :
    register wDb 2 "A@X.com" "other12345" none = (.emailTaken, wDb)
    ∧ List.Pairwise (fun u v => lowerStr u.email ≠ lowerStr v.email)
        (register ⟨[], []⟩ 3 "a@x.com" "other12345" none).2.users :=
  claim_C6 wDb ⟨[], []⟩ 2 3 "A@X.com" "other12345" "a@x.com" "other12345"
    none none (by decide) (by decide) (by rfl)
    ⟨wAccount, by simp [wDb], by decide⟩ (by simp)

/-- C10: updateProfile changes at most the nickname and password hash of
the targeted account: on success the account keeps its id, email and
bookmark set and the post collection is untouched; on any non-success
outcome (validation failure or 404) the whole state is unchanged. -/
theorem claim_C10 (db : DB) (uid : Nat) (nick? pw? : Option String) :
    (∀ u, nicknameBad nick? = false → passwordOptBad pw? = false →
      findUserById db.users uid = some u →
      ∃ u2, updateProfile db uid nick? pw?
          = (.ok u2, { db with users := saveUser db.users u2 })
        ∧ u2.id = u.id ∧ u2.email = u.email ∧ u2.bookmarks = u.bookmarks
        ∧ findUserById (saveUser db.users u2) uid = some u2
        ∧ (updateProfile db uid nick? pw?).2.posts = db.posts)
    ∧ (profileOk (updateProfile db uid nick? pw?).1 = false →
        (updateProfile db uid nick? pw?).2 = db) := by
  constructor
  · intro u hn hpw hu
    have heq : updateProfile db uid nick? pw?
        = (.ok (profileUpdatedUser u nick? pw?),
           { db with users := saveUser db.users (profileUpdatedUser u nick? pw?) }) := by
      simp [updateProfile, hn, hpw, hu]
    refine ⟨profileUpdatedUser u nick? pw?, heq,
      profileUpdatedUser_id u nick? pw?, profileUpdatedUser_email u nick? pw?,
      profileUpdatedUser_bookmarks u nick? pw?, ?_, by rw [heq]⟩
    exact findUser_after_save db uid u (profileUpdatedUser u nick? pw?) hu
      (by rw [profileUpdatedUser_id]
          exact findBy_eq_id Account.id db.users uid u hu)
  · intro hno
    cases h1 : nicknameBad nick? with
    | true => simp [updateProfile, h1]
    | false =>
      cases h2 : passwordOptBad pw? with
      | true => simp [updateProfile, h1, h2]
      | false =>
        cases hu : findUserById db.users uid with
        | none => simp [updateProfile, h1, h2, hu]
        | some u => simp [updateProfile, h1, h2, hu, profileOk] at hno

theorem claim_C10_witness :
    ∃ u2, updateProfile wDb 1 (some "newnick") none
        = (.ok u2, { wDb with users := saveUser wDb.users u2 })
      ∧ u2.id = wAccount.id ∧ u2.email = wAccount.email
      ∧ u2.bookmarks = wAccount.bookmarks
      ∧ findUserById (saveUser wDb.users u2) 1 = some u2
      ∧ (updateProfile wDb 1 (some "newnick") none).2.posts = wDb.posts :=
  (claim_C10 wDb 1 (some "newnick") none).1 wAccount (by decide) (by rfl) (by rfl)

set_option maxRecDepth 4000 in
/-- C7 (code divergence, evaluated): the limiter's allow-list entry
compares req.path with '/api/auth/me', but under the '/api/auth' mount
Express strips the prefix, so the predicate never matches and the 101st
request to /me inside one window is answered 429 — the /me exemption the
claim (and the source's own comment) describe never fires.  The limiter
parts the claim gets right are also evaluated: the 101st credential
request inside one 15-minute window is limited with a positive
retry-after, and a request after the window elapses is allowed. -/
theorem claim_C7_divergence :
    skipCheck (mountedPath "/api/auth/me") = false
    ∧ skipCheck "/api/auth/me" = true
    ∧ (authLimiter (runSeq none (List.replicate 100 ("/api/auth/me", 0)))
        "/api/auth/me" 5).1 = .limited 899995
    ∧ (authLimiter (runSeq none (List.replicate 100 ("/api/auth/login", 0)))
        "/api/auth/login" 5).1 = .limited 899995
    ∧ 0 < 899995
    ∧ (authLimiter (runSeq none (List.replicate 100 ("/api/auth/login", 0)))
        "/api/auth/login" 900000).1 = .allowed := by
  decide

end DevHub
